import Mathlib

/-!
Verification development for the zeus_watchdog node
(src/src/zeus_watchdog.cpp).

The node monitors the arrival frequency of a set of ROS topics.  Each
TopicMonitor keeps a log of arrival time stamps and periodically decides a
Boolean verdict (strict mode: every adjacent gap must be at most
min_time; averaging mode: the sum of the gaps divided by the number of
stamps must be at most min_time).  The ZeusWatchdog aggregates the
verdicts with a logical AND and gates a Twist command stream on the
aggregate flag.

Time values, which the C++ source holds as ros::Time and float seconds,
are modelled as rationals; the Boolean control flow of the source is
translated branch by branch.
-/

namespace ZeusWatchdog

/-- geometry_msgs::Twist: six numeric components.  The C++ default
constructor geometry_msgs::Twist() zero-initialises every field, which the
default field values reproduce. -/
structure Twist where
  linear_x : ℚ := 0
  linear_y : ℚ := 0
  linear_z : ℚ := 0
  angular_x : ℚ := 0
  angular_y : ℚ := 0
  angular_z : ℚ := 0
deriving DecidableEq, Repr

/-- The all-zero Twist, written out component by component; the spec's
"neutral/zero-valued command of the same Twist type". -/
def zeroTwist : Twist :=
  { linear_x := 0, linear_y := 0, linear_z := 0
    angular_x := 0, angular_y := 0, angular_z := 0 }

/-- ZeusWatchdog::cmdVelCB (zeus_watchdog.cpp lines 99-109): if the gating
flag status_ is true the incoming message is republished unchanged,
otherwise a default-constructed geometry_msgs::Twist() is published. -/
def cmdVelCB (status_ : Bool) (msg : Twist) : Twist :=
  if status_ = true then msg else {}

/-- TopicMonitor constructor, line 121: min_time_ = 1 / min_freq_. -/
def minTime (min_freq : ℚ) : ℚ := 1 / min_freq

/-- The adjacent gaps of the stamp log: the loop at lines 168-178 visits
elapsed_time = (stamps_[i+1] - stamps_[i]).toSec() for i = 0 .. size-2. -/
def gaps : List ℚ → List ℚ
  | a :: b :: rest => (b - a) :: gaps (b :: rest)
  | _ => []

/-- Strict-mode scan over the gaps (lines 168-175 with use_average_ false):
status_ starts true and the loop sets it to false and breaks at the first
gap strictly greater than min_time_. -/
def strictScanBreak (min_time : ℚ) : List ℚ → Bool
  | [] => true
  | g :: rest => if min_time < g then false else strictScanBreak min_time rest

/-- The same strict verdict without the early break: every gap is examined.
Used to state that the short circuit does not change the verdict. -/
def strictScanAll (min_time : ℚ) (gs : List ℚ) : Bool :=
  gs.all fun g => decide (¬ min_time < g)

/-- One evaluation of TopicMonitor::run (lines 164-192).  With fewer than
two stamps, status_ = false.  Otherwise, in strict mode the loop breaks at
the first gap above min_time_ (the running sum it also keeps is never read
in that mode); in averaging mode the guard !use_average_ is false, so the
loop only accumulates elapsed_time_sum over every gap, and afterwards
status_ = false iff elapsed_time_sum / stamps_.size() exceeds min_time_.
Note the divisor is the number of stamps, not the number of gaps. -/
def monitorEvaluate (use_average : Bool) (min_time : ℚ) (stamps : List ℚ) : Bool :=
  if 2 ≤ stamps.length then
    if use_average then
      decide (¬ min_time < (gaps stamps).sum / (stamps.length : ℚ))
    else
      strictScanBreak min_time (gaps stamps)
  else
    false

/-- Retention step of TopicMonitor::run (lines 193-198): when at least one
stamp is present, last_stamp = stamps_[size-1], the vector is cleared and
last_stamp is pushed back; an empty log is left untouched. -/
def retainLast (stamps : List ℚ) : List ℚ :=
  if h : 1 ≤ stamps.length then
    [stamps.get ⟨stamps.length - 1, by omega⟩]
  else
    stamps

/-- One full cycle of the TopicMonitor::run loop body: the verdict just
computed together with the stamp log left for the next cycle. -/
def monitorCycle (use_average : Bool) (min_time : ℚ) (stamps : List ℚ) :
    Bool × List ℚ :=
  (monitorEvaluate use_average min_time stamps, retainLast stamps)

/-- Snapshot of one TopicMonitor as the supervisor loop reads it:
t->getName() and t->getStatus(). -/
structure TopicSnapshot where
  name : String
  status : Bool
deriving DecidableEq, Repr

/-- One zeus_watchdog/TopicStatus message as filled at lines 84-86. -/
structure TopicStatusMsg where
  name : String
  status : Bool
deriving DecidableEq, Repr

/-- One iteration of the ZeusWatchdog::run loop (lines 78-94): status_
starts true; for every monitor a TopicStatus entry is appended to the
TopicArray and status_ is forced to false when the monitor's status is
false.  Result: the aggregate flag and the published per-topic report. -/
def supervisorCycle (topic_list : List TopicSnapshot) : Bool × List TopicStatusMsg :=
  topic_list.foldl
    (fun acc t =>
      ((if t.status = false then false else acc.1),
       acc.2 ++ [{ name := t.name, status := t.status }]))
    (true, [])

/-- Parameters the node reads for one topic_i block (lines 43-47); a field
is none when the parameter server does not hold it. -/
structure TopicParams where
  name : Option String
  topic_name : Option String
  min_freq : Option ℚ
  use_average : Option Bool
  monitoring_rate : Option ℚ

/-- The private parameter server as createTopicMonitors queries it:
nb_of_topics, rate, and the block of parameters for each topic_(i+1). -/
structure ParamServer where
  nb_of_topics : Option Int
  rate : Option ℚ
  topics : Nat → TopicParams

/-- The data a successfully constructed TopicMonitor holds (line 53). -/
structure MonitorConfig where
  name : String
  topic_name : String
  min_freq : ℚ
  use_average : Bool
  monitoring_rate : ℚ
deriving DecidableEq, Repr

/-- Outcome of ZeusWatchdog::createTopicMonitors.  fatal: a ROS_FATAL
message was logged and the function returned false; the monitors created
before the failing topic are already in topic_list_.  fallThrough: the
loop completed, every monitor was created and started, and control fell
off the end of the function (the source has no return statement on this
path, so the returned bool is indeterminate). -/
inductive CreateResult where
  | fatal (msg : String) (topic_list : List MonitorConfig)
  | fallThrough (topic_list : List MonitorConfig)
deriving DecidableEq, Repr

/-- The topic_list_ contents after createTopicMonitors returns, on either
path. -/
def CreateResult.topicList : CreateResult → List MonitorConfig
  | .fatal _ l => l
  | .fallThrough l => l

/-- Whether createTopicMonitors hit a ROS_FATAL and returned false. -/
def CreateResult.isFatal : CreateResult → Bool
  | .fatal _ _ => true
  | .fallThrough _ => false

/-- Reading the five parameters of one topic block (lines 43-48): the
monitor data when all five exist, none when any is missing. -/
def readTopic (tp : TopicParams) : Option MonitorConfig :=
  match tp.name, tp.topic_name, tp.min_freq, tp.use_average, tp.monitoring_rate with
  | some n, some t, some f, some ua, some r =>
      some { name := n, topic_name := t, min_freq := f, use_average := ua
             monitoring_rate := r }
  | _, _, _, _, _ => none

/-- The retrieval loop of createTopicMonitors (lines 37-59): fuel counts
the remaining iterations, i is the current index, acc the monitors pushed
to topic_list_ so far (in push order).  A missing parameter for
topic_(i+1) logs ROS_FATAL and returns false at once; a complete block
constructs and starts the monitor and pushes it. -/
def createLoop (ps : ParamServer) : Nat → Nat → List MonitorConfig → CreateResult
  | 0, _, acc => .fallThrough acc
  | fuel + 1, i, acc =>
    match readTopic (ps.topics i) with
    | none =>
        .fatal ("One or more parameter for topic_" ++ toString (i + 1) ++ " is missing") acc
    | some m => createLoop ps fuel (i + 1) (acc ++ [m])

/-- ZeusWatchdog::createTopicMonitors (lines 18-60): fails fatally when
nb_of_topics or rate is missing, then runs the per-topic loop for
i = 0 .. nb_of_topics-1 (an int; a non-positive count runs the loop zero
times). -/
def createTopicMonitors (ps : ParamServer) : CreateResult :=
  match ps.nb_of_topics with
  | none => .fatal "Missing nb_of_topics parameter" []
  | some nb =>
    match ps.rate with
    | none => .fatal "Missing rate parameter" []
    | some _ => createLoop ps nb.toNat 0 []

/-- The ZeusWatchdog constructor (line 12) calls createTopicMonitors and
discards its Boolean result; whatever happened, main proceeds to run with
the topic_list_ built so far. -/
def constructorTopicList (ps : ParamServer) : List MonitorConfig :=
  (createTopicMonitors ps).topicList

/-- A topic block with none of its five parameters set. -/
def noParams : TopicParams :=
  { name := none, topic_name := none, min_freq := none, use_average := none
    monitoring_rate := none }

/-- A parameter server whose nb_of_topics parameter is missing. -/
def psMissingNb : ParamServer :=
  { nb_of_topics := none, rate := some 10, topics := fun _ => noParams }

/-- A parameter server with nb_of_topics = 0 and rate present. -/
def psZeroTopics : ParamServer :=
  { nb_of_topics := some 0, rate := some 10, topics := fun _ => noParams }

/-! Helper lemmas. -/

theorem strictScanBreak_eq_all (mt : ℚ) (gs : List ℚ) :
    strictScanBreak mt gs = strictScanAll mt gs := by
  induction gs with
  | nil => rfl
  | cons g rest ih =>
    rw [strictScanBreak, strictScanAll, List.all_cons, ← strictScanAll, ← ih]
    by_cases h : mt < g
    · rw [if_pos h]
      simp [h]
    · rw [if_neg h]
      simp [h]

theorem strictScanAll_eq_true (mt : ℚ) (gs : List ℚ) :
    strictScanAll mt gs = true ↔ ∀ g ∈ gs, g ≤ mt := by
  simp [strictScanAll, not_lt]

theorem monitorEvaluate_strict (mt : ℚ) (s : List ℚ) (h : 2 ≤ s.length) :
    monitorEvaluate false mt s = true ↔ ∀ g ∈ gaps s, g ≤ mt := by
  rw [monitorEvaluate, if_pos h]
  simp only [Bool.false_eq_true, if_false]
  rw [strictScanBreak_eq_all, strictScanAll_eq_true]

theorem monitorEvaluate_avg (mt : ℚ) (s : List ℚ) (h : 2 ≤ s.length) :
    monitorEvaluate true mt s = true ↔ (gaps s).sum / (s.length : ℚ) ≤ mt := by
  rw [monitorEvaluate, if_pos h]
  simp [not_lt]

theorem gaps_length : ∀ s : List ℚ, (gaps s).length = s.length - 1
  | [] => rfl
  | [_] => rfl
  | a :: b :: r => by
    simp [gaps, gaps_length (b :: r)]

theorem gaps_nonneg : ∀ s : List ℚ, List.Chain' (· ≤ ·) s → ∀ g ∈ gaps s, 0 ≤ g
  | [], _, g, hg => by simp [gaps] at hg
  | [_], _, g, hg => by simp [gaps] at hg
  | a :: b :: r, hc, g, hg => by
    rw [List.chain'_cons] at hc
    rw [gaps, List.mem_cons] at hg
    rcases hg with rfl | hg
    · linarith [hc.1]
    · exact gaps_nonneg (b :: r) hc.2 g hg

theorem sum_le_of_all_le (mt : ℚ) :
    ∀ gs : List ℚ, (∀ g ∈ gs, g ≤ mt) → gs.sum ≤ (gs.length : ℚ) * mt
  | [], _ => by simp
  | g :: r, h => by
    have h1 : g ≤ mt := h g (List.mem_cons_self g r)
    have h2 : r.sum ≤ (r.length : ℚ) * mt :=
      sum_le_of_all_le mt r fun x hx => h x (List.mem_cons_of_mem g hx)
    simp only [List.sum_cons, List.length_cons]
    push_cast
    linarith

theorem supervisorFold (ts : List TopicSnapshot) (b : Bool) (msgs : List TopicStatusMsg) :
    ts.foldl
      (fun acc t =>
        ((if t.status = false then false else acc.1),
         acc.2 ++ [{ name := t.name, status := t.status }]))
      (b, msgs)
      = (b && ts.all (fun t => t.status),
         msgs ++ ts.map fun t => { name := t.name, status := t.status }) := by
  induction ts generalizing b msgs with
  | nil => simp
  | cons t r ih =>
    rw [List.foldl_cons, ih]
    cases h : t.status <;> simp [h]

theorem supervisorCycle_spec (ts : List TopicSnapshot) :
    supervisorCycle ts =
      (ts.all (fun t => t.status),
       ts.map fun t => { name := t.name, status := t.status }) := by
  rw [supervisorCycle, supervisorFold]
  simp

theorem retainLast_concat (s : List ℚ) (x : ℚ) : retainLast (s ++ [x]) = [x] := by
  have h : 1 ≤ (s ++ [x]).length := by simp
  rw [retainLast, dif_pos h]
  have hlen : (s ++ [x]).length - 1 = s.length := by simp
  rw [List.get_eq_getElem]
  congr 1
  simp only [hlen]
  exact List.getElem_concat_length s x s.length rfl (by simp)

/-! Claim theorems. -/

/-- Claim C1: the gating callback forwards the inbound Twist unchanged
when status_ is true and publishes the all-zero Twist when status_ is
false, regardless of the message content. -/
theorem cmdVelCB_gating :
    (∀ msg : Twist, cmdVelCB true msg = msg) ∧
    (∀ msg : Twist, cmdVelCB false msg = zeroTwist) :=
  ⟨fun _ => rfl, fun _ => rfl⟩

/-- Claim C2: in strict mode, for a log of at least two stamps, the
verdict is healthy iff every adjacent gap is at most min_time; the
short-circuiting scan agrees with examining every gap; and on the lidar
scenario (min_frequency 10 Hz, arrivals 0, 0.05, 0.11, 0.30 s) the gaps
are 0.05, 0.06, 0.19 and the verdict is unhealthy. -/
theorem strict_mode_verdict (min_freq : ℚ) (stamps : List ℚ)
    (h : 2 ≤ stamps.length) :
    (monitorEvaluate false (minTime min_freq) stamps = true ↔
      ∀ g ∈ gaps stamps, g ≤ minTime min_freq) ∧
    monitorEvaluate false (minTime min_freq) stamps
      = strictScanAll (minTime min_freq) (gaps stamps) ∧
    (min_freq = 10 → stamps = [0, 1/20, 11/100, 3/10] →
      gaps stamps = [1/20, 3/50, 19/100] ∧
      monitorEvaluate false (minTime min_freq) stamps = false) := by
  refine ⟨monitorEvaluate_strict _ _ h, ?_, ?_⟩
  · rw [monitorEvaluate, if_pos h]
    simp only [Bool.false_eq_true, if_false]
    exact strictScanBreak_eq_all _ _
  · rintro rfl rfl
    have hg : gaps [(0 : ℚ), 1/20, 11/100, 3/10] = [1/20, 3/50, 19/100] := by
      norm_num [gaps]
    refine ⟨hg, ?_⟩
    rw [← Bool.not_eq_true, monitorEvaluate_strict _ _ h]
    intro hall
    have h19 : (19 : ℚ)/100 ≤ minTime 10 := hall (19/100) (by rw [hg]; simp)
    norm_num [minTime] at h19

theorem strict_mode_verdict_witness :
    gaps [0, 1/20, 11/100, 3/10] = [1/20, 3/50, 19/100] ∧
    monitorEvaluate false (minTime 10) [0, 1/20, 11/100, 3/10] = false :=
  (strict_mode_verdict 10 [0, 1/20, 11/100, 3/10] (by simp)).2.2 rfl rfl

/-- Claim C3: in averaging mode, for a log of at least two stamps, the
verdict is healthy iff the sum of the adjacent gaps divided by the number
of stamps is at most min_time; the divisor is the stamp count, one more
than the gap count. -/
theorem averaging_mode_verdict (min_freq : ℚ) (stamps : List ℚ)
    (h : 2 ≤ stamps.length) :
    (monitorEvaluate true (minTime min_freq) stamps = true ↔
      (gaps stamps).sum / (stamps.length : ℚ) ≤ minTime min_freq) ∧
    (stamps.length : ℚ) = ((gaps stamps).length : ℚ) + 1 := by
  refine ⟨monitorEvaluate_avg _ _ h, ?_⟩
  have h1 : (gaps stamps).length + 1 = stamps.length := by
    have := gaps_length stamps
    omega
  exact_mod_cast h1.symm

theorem averaging_mode_verdict_witness :
    monitorEvaluate true (minTime 10) [0, 1/10, 2/10] = true :=
  ((averaging_mode_verdict 10 [0, 1/10, 2/10] (by simp)).1).mpr
    (by norm_num [gaps, minTime])

/-- Claim C4: one supervisor cycle sets the aggregate flag to true iff
every monitor's status is true, an empty monitor list gives a vacuously
true flag, and the published report carries one name/status entry per
monitor. -/
theorem supervisor_aggregate (ts : List TopicSnapshot) :
    ((supervisorCycle ts).1 = true ↔ ∀ t ∈ ts, t.status = true) ∧
    (supervisorCycle ts).2 = (ts.map fun t => { name := t.name, status := t.status }) ∧
    (supervisorCycle ([] : List TopicSnapshot)).1 = true := by
  rw [supervisorCycle_spec]
  refine ⟨?_, rfl, rfl⟩
  simp [List.all_eq_true]

theorem supervisor_aggregate_witness :
    (supervisorCycle
        [{ name := "a", status := true }, { name := "b", status := true },
         { name := "c", status := true }, { name := "d", status := false }]).1 = true ↔
      ∀ t ∈ [({ name := "a", status := true } : TopicSnapshot),
             { name := "b", status := true }, { name := "c", status := true },
             { name := "d", status := false }], t.status = true :=
  (supervisor_aggregate
    [{ name := "a", status := true }, { name := "b", status := true },
     { name := "c", status := true }, { name := "d", status := false }]).1

/-- Claim C5: after an evaluation cycle exactly the most recent stamp of a
nonempty pre-evaluation log survives, an empty log stays empty, and in
particular a log t1, t2, t3 becomes the singleton t3. -/
theorem retention_policy (use_average : Bool) (min_time : ℚ) :
    (monitorCycle use_average min_time []).2 = [] ∧
    (∀ (s : List ℚ) (x : ℚ), (monitorCycle use_average min_time (s ++ [x])).2 = [x]) ∧
    (∀ t1 t2 t3 : ℚ, (monitorCycle use_average min_time [t1, t2, t3]).2 = [t3]) :=
  ⟨rfl, fun s x => retainLast_concat s x, fun t1 t2 t3 => retainLast_concat [t1, t2] t3⟩

/-- Claim C6: with fewer than two recorded stamps the verdict of an
evaluation cycle is unhealthy, in strict and in averaging mode alike. -/
theorem insufficient_data_unhealthy (use_average : Bool) (min_time : ℚ)
    (stamps : List ℚ) (h : stamps.length < 2) :
    monitorEvaluate use_average min_time stamps = false := by
  rw [monitorEvaluate, if_neg (by omega)]

theorem insufficient_data_unhealthy_witness :
    monitorEvaluate true (minTime 10) [5] = false ∧
    monitorEvaluate false (minTime 10) [] = false :=
  ⟨insufficient_data_unhealthy true (minTime 10) [5] (by simp),
   insufficient_data_unhealthy false (minTime 10) [] (by simp)⟩

/-- Claim C7: at a parameter server missing nb_of_topics,
createTopicMonitors logs the fatal message and returns false with an empty
topic_list_; but the constructor discards that result, so the node still
holds an empty monitor list and the supervisor cycle it proceeds to run
reports the system healthy. -/
theorem createTopicMonitors_fatal_ignored :
    createTopicMonitors psMissingNb
      = .fatal "Missing nb_of_topics parameter" [] ∧
    constructorTopicList psMissingNb = [] ∧
    (supervisorCycle []).1 = true :=
  ⟨rfl, rfl, rfl⟩

/-- Counterexample to claim C8: with nb_of_topics = 0 and rate present,
createTopicMonitors reports no fatal error at all; the loop runs zero
times and control falls off the end with an empty topic_list_. -/
theorem empty_config_no_fatal :
    (createTopicMonitors psZeroTopics).isFatal = false ∧
    createTopicMonitors psZeroTopics = .fallThrough [] :=
  ⟨rfl, rfl⟩

/-- Claim C8 as amended: with nb_of_topics = 0 and rate present,
initialization does not fail; it creates zero monitors, and the process
proceeds to monitoring, where the aggregate over the empty monitor list is
vacuously healthy. -/
theorem empty_config_proceeds (ps : ParamServer) (r : ℚ)
    (hnb : ps.nb_of_topics = some 0) (hr : ps.rate = some r) :
    createTopicMonitors ps = .fallThrough [] ∧
    (supervisorCycle []).1 = true := by
  obtain ⟨nb, rate, tps⟩ := ps
  simp only at hnb hr
  subst hnb hr
  exact ⟨rfl, rfl⟩

theorem empty_config_proceeds_witness :
    createTopicMonitors psZeroTopics = .fallThrough [] ∧
    (supervisorCycle []).1 = true :=
  empty_config_proceeds psZeroTopics 10 rfl rfl

/-- Claim C9: on a monotone stamp log of at least two entries, a healthy
strict-mode verdict implies a healthy averaging-mode verdict with the same
min_time. -/
theorem averaging_permissive (min_freq : ℚ) (stamps : List ℚ)
    (h2 : 2 ≤ stamps.length) (hmono : List.Chain' (· ≤ ·) stamps)
    (hstrict : monitorEvaluate false (minTime min_freq) stamps = true) :
    monitorEvaluate true (minTime min_freq) stamps = true := by
  have hall := (monitorEvaluate_strict _ stamps h2).mp hstrict
  have hnn := gaps_nonneg stamps hmono
  have hglen : (gaps stamps).length = stamps.length - 1 := gaps_length stamps
  have hne : gaps stamps ≠ [] := by
    intro he
    rw [he] at hglen
    simp at hglen
    omega
  obtain ⟨g0, hg0⟩ := List.exists_mem_of_ne_nil _ hne
  have hmt : 0 ≤ minTime min_freq := le_trans (hnn g0 hg0) (hall g0 hg0)
  have hsum : (gaps stamps).sum ≤ ((gaps stamps).length : ℚ) * minTime min_freq :=
    sum_le_of_all_le _ _ hall
  have hlt : ((gaps stamps).length : ℚ) ≤ (stamps.length : ℚ) := by
    exact_mod_cast Nat.le_of_lt_succ (by omega)
  have hlen_pos : 0 < (stamps.length : ℚ) := by
    exact_mod_cast Nat.lt_of_lt_of_le (by omega) h2
  rw [monitorEvaluate_avg _ stamps h2, div_le_iff₀ hlen_pos]
  calc (gaps stamps).sum
      ≤ ((gaps stamps).length : ℚ) * minTime min_freq := hsum
    _ ≤ (stamps.length : ℚ) * minTime min_freq :=
        mul_le_mul_of_nonneg_right hlt hmt
    _ = minTime min_freq * (stamps.length : ℚ) := mul_comm _ _

theorem averaging_permissive_witness :
    monitorEvaluate true (minTime 10) [0, 1/20] = true :=
  averaging_permissive 10 [0, 1/20] (by simp)
    (by norm_num [List.chain'_cons, List.chain'_singleton])
    ((monitorEvaluate_strict (minTime 10) [0, 1/20] (by simp)).mpr
      (by intro g hg
          simp [gaps] at hg
          subst hg
          norm_num [minTime]))

/-- Claim C10: for a two-stamp log with gap b - a, the averaging-mode
verdict is healthy iff the gap is at most 2 / min_frequency, twice the
configured minimum interval. -/
theorem two_stamp_averaging (min_freq a b : ℚ) :
    monitorEvaluate true (minTime min_freq) [a, b] = true ↔
      b - a ≤ 2 / min_freq := by
  rw [monitorEvaluate_avg _ _ (by simp)]
  have h1 : (gaps [a, b]).sum = b - a := by simp [gaps]
  have h2 : (([a, b] : List ℚ).length : ℚ) = 2 := by simp
  have h3 : minTime min_freq * 2 = 2 / min_freq := by
    rw [minTime]; ring
  rw [h1, h2, div_le_iff₀ (by norm_num : (0 : ℚ) < 2), h3]

end ZeusWatchdog
